import Mathlib

/-!
Verification of the fetch-and-aggregate pipeline in
src/app/jobs/fetchPackageExtra.js.

The file shallowly embeds the module: external collaborators (the registry
JSON API, the source-hosting repo API and HTML pages, the package
enumerator, the date parser) are an explicit environment, the key-value
store is an explicit state record, and every fetcher becomes a pure state
transformer returning the updated store together with the log entries it
emitted. JavaScript quirks that matter to the claims are modelled
explicitly: `undefined` string values are `Option String`, the NaN result
of `new Date(bad).getTime()` is the `none` of `JTime`, and JS truthiness
on strings (empty string is falsy) is spelled out wherever the source
relies on it.
-/

namespace Upm

/-- Outcome of one outbound HTTP request: a parsed response body, a 404
not-found rejection, or any other transport failure. -/
inductive Fetch (α : Type) where
  | ok (a : α)
  | notFound
  | err
  deriving DecidableEq

/-- JS string value that may be `undefined` (`none`). -/
abbrev JsStr := Option String

/-- JS numeric time value; `none` stands for NaN, the result of
`new Date(unparseable).getTime()`. -/
abbrev JTime := Option Int

/-- Log entry emitted through `logger` or `console.error`. -/
inductive LogEntry where
  | info (msg : String)
  | error (msg : String)
  deriving DecidableEq

/-- Entry of the registry `versions` map; only the `unity` field is read
(line 56 of the source). `none` means the field is absent. -/
structure VersionInfo where
  unity : Option String
  deriving DecidableEq

/-- Registry metadata response body. Outer `Option`s model missing
object fields (`dist-tags`, `versions`, `time`), inner values model the
lookups the source performs on them. -/
structure RegistryInfo where
  distTags : Option (Option String)
  versions : Option (String → Option VersionInfo)
  time : Option (String → Option String)

/-- Repo API response body: `stargazers_count` and, when the repo is a
fork, `parent.stargazers_count` (lines 77-80). `Option` models missing
JSON fields. -/
structure RepoInfo where
  stargazers : Option Nat
  parent : Option (Option Nat)
  deriving DecidableEq

/-- Repo HTML page, reduced to the datum the source consumes: the content
attribute of the og:image meta tag (line 100); `none` when the tag or
attribute is absent. -/
structure Page where
  ogImage : Option String
  deriving DecidableEq

/-- Package descriptor loaded from the enumerator: primary repo reference
and the possibly-undefined parent repo reference. -/
structure Pkg where
  repo : String
  parentRepo : JsStr
  deriving DecidableEq

/-- Aggregated per-package record built at lines 179-188 of the source:
stars defaulted to 0, unity defaulted to the baseline constant, imageUrl
and time turned into explicit absence when falsy. -/
structure AggRecord where
  stars : Nat
  unity : String
  imageUrl : Option String
  time : Option Int
  deriving DecidableEq

/-- Baseline runtime version used by the aggregator (line 183). -/
def baselineUnity : String := "2018.1"

/-- Environment of external collaborators, held fixed during a run:
the enumerator (listing, existence check, descriptor loading), the three
external HTTP sources, and the date parser. -/
structure Env where
  packageNames : List String
  packageExists : String → Bool
  loadPackage : String → Pkg
  registry : String → Fetch RegistryInfo
  repoApi : String → Fetch RepoInfo
  repoPage : String → Fetch Page
  readme : String → Fetch String
  parseDate : String → Option Int

/-- Key-value store state: one independent map per field kind, plus the
bulk aggregated mapping. -/
@[ext]
structure Store where
  unity : String → Option String
  stars : String → Option Nat
  imageUrl : String → Option JsStr
  updatedTime : String → Option JTime
  readme : String → Option String
  aggregated : String → Option AggRecord

/-- Write of packageExtra.setUnityVersion (line 57). -/
def Store.setUnity (s : Store) (p : String) (v : String) : Store :=
  { s with unity := fun q => if q = p then some v else s.unity q }

/-- Write of packageExtra.setStars (line 81). -/
def Store.setStars (s : Store) (p : String) (v : Nat) : Store :=
  { s with stars := fun q => if q = p then some v else s.stars q }

/-- Write of packageExtra.setImageUrl (line 118). -/
def Store.setImageUrl (s : Store) (p : String) (v : JsStr) : Store :=
  { s with imageUrl := fun q => if q = p then some v else s.imageUrl q }

/-- Write of packageExtra.setUpdatedTime (line 160). -/
def Store.setUpdatedTime (s : Store) (p : String) (v : JTime) : Store :=
  { s with updatedTime := fun q => if q = p then some v else s.updatedTime q }

/-- Write of packageExtra.setReadme (line 138). -/
def Store.setReadme (s : Store) (p : String) (v : String) : Store :=
  { s with readme := fun q => if q = p then some v else s.readme q }

/-- JS truthiness of a possibly-undefined string: undefined and the empty
string are falsy. -/
def jsTruthyStr : JsStr → Bool
  | none => false
  | some s => s != ""

/-- Expression `(data.time || \x7b\x7d)[version] || ...` feeding line 159:
the publish timestamp string of the latest version, `none` when the
`time` object, the `dist-tags` object, the latest tag, or the entry is
missing. -/
def timeStrOf (data : RegistryInfo) : Option String :=
  match data.time, data.distTags.getD none with
  | some tm, some v => tm v
  | _, _ => none

/-- Value of `new Date(timeStr || 0).getTime()` (lines 158-159): a missing
or empty timestamp string falls back to 0 whose date is the epoch, any
other string goes through the date parser (NaN modelled as `none`). -/
def timeValOf (env : Env) (data : RegistryInfo) : JTime :=
  match timeStrOf data with
  | none => some 0
  | some s => if s = "" then some 0 else env.parseDate s

/-- Embedding of _fetchUpdatedTime (lines 148-164): on any successful
response it writes the computed time; every failure, including 404, is
caught by the single catch block and logged via console.error with no
write. -/
def fetchUpdatedTime (env : Env) (packageName : String) (st : Store) :
    Store × List LogEntry :=
  match env.registry packageName with
  | .ok data => (st.setUpdatedTime packageName (timeValOf env data), [])
  | .notFound => (st, [LogEntry.error "fetch error"])
  | .err => (st, [LogEntry.error "fetch error"])

/-- Outcome of the body of _fetchUnityVersion on a successful response:
write the unity value, silently skip (absent or empty unity field), or
raise a shape error (missing dist-tags or versions object, or missing
version entry, making the subsequent property access throw). -/
inductive UnityOutcome where
  | write (u : String)
  | skip
  | shapeError
  deriving DecidableEq

/-- Evaluation of lines 54-57 on a registry response: resolve the latest
tag, look the version up, read its unity field, write only when truthy. -/
def unityOutcome (data : RegistryInfo) : UnityOutcome :=
  match data.distTags with
  | none => .shapeError
  | some latest =>
    match data.versions with
    | none => .shapeError
    | some vmap =>
      match (match latest with | some v => vmap v | none => none) with
      | none => .shapeError
      | some vi =>
        match vi.unity with
        | some u => if u = "" then .skip else .write u
        | none => .skip

/-- Embedding of _fetchUnityVersion (lines 45-62): writes only a truthy
unity value; a 404 is silent (lines 59-60), any other failure, including
a shape error thrown while reading the response, is logged. -/
def fetchUnityVersion (env : Env) (packageName : String) (st : Store) :
    Store × List LogEntry :=
  match env.registry packageName with
  | .ok data =>
    match unityOutcome data with
    | .write u => (st.setUnity packageName u, [])
    | .skip => (st, [])
    | .shapeError => (st, [LogEntry.error "fetch error"])
  | .notFound => (st, [])
  | .err => (st, [LogEntry.error "fetch error"])

/-- Star count computed at lines 78-80: stargazers_count defaulted to 0,
plus the parent stargazers_count when a parent object is present. -/
def starsValOf (ri : RepoInfo) : Nat :=
  ri.stargazers.getD 0 +
    (match ri.parent with
     | some ps => ps.getD 0
     | none => 0)

/-- Embedding of _fetchStars (lines 68-85): writes the summed star count
on success; every failure, including 404, is caught and logged via
console.error with no write. -/
def fetchStars (env : Env) (repo : String) (packageName : String) (st : Store) :
    Store × List LogEntry :=
  match env.repoApi repo with
  | .ok ri => (st.setStars packageName (starsValOf ri), [])
  | .notFound => (st, [LogEntry.error "fetch error"])
  | .err => (st, [LogEntry.error "fetch error"])

/-- Test of the auto-generated-avatar regex at line 101, which anchors
the literal https://avatar at the start of the URL: a character-level
prefix test. -/
def isAvatarUrl (s : String) : Bool :=
  "https://avatar".data.isPrefixOf s.data

/-- Embedding of the helper _fetchOGImageForRepo (lines 94-109): extract
the og:image content attribute, blank it when it matches the
auto-generated avatar pattern, and return the empty string (after
logging) on any fetch failure. -/
def fetchOGImageForRepo (env : Env) (repo : String) : JsStr × List LogEntry :=
  match env.repoPage repo with
  | .ok page =>
    (match page.ogImage with
     | some c => if isAvatarUrl c then some "" else some c
     | none => none, [])
  | .notFound => (some "", [LogEntry.error "fetch error"])
  | .err => (some "", [LogEntry.error "fetch error"])

/-- Final image value computed by _fetchOGImage before the save (lines
111-115): primary repo first, then the parent repo when the first result
and the parent reference are respectively falsy and truthy. -/
def ogImageResult (env : Env) (pkg : Pkg) : JsStr :=
  let r1 := fetchOGImageForRepo env pkg.repo
  if !jsTruthyStr r1.1 && jsTruthyStr pkg.parentRepo then
    (fetchOGImageForRepo env (pkg.parentRepo.getD "")).1
  else r1.1

/-- Embedding of _fetchOGImage (lines 92-122): compute the final image
value with parent fallback and write it unconditionally. -/
def fetchOGImage (env : Env) (pkg : Pkg) (packageName : String) (st : Store) :
    Store × List LogEntry :=
  let r1 := fetchOGImageForRepo env pkg.repo
  let r2 :=
    if !jsTruthyStr r1.1 && jsTruthyStr pkg.parentRepo then
      let rp := fetchOGImageForRepo env (pkg.parentRepo.getD "")
      (rp.1, r1.2 ++ rp.2)
    else r1
  (st.setImageUrl packageName r2.1, r2.2)

/-- Embedding of _fetchReadme (lines 128-142): writes the raw text on
success; every failure, including 404, is caught and logged via
console.error with no write. -/
def fetchReadme (env : Env) (repo : String) (packageName : String) (st : Store) :
    Store × List LogEntry :=
  match env.readme repo with
  | .ok text => (st.setReadme packageName text, [])
  | .notFound => (st, [LogEntry.error "fetch error"])
  | .err => (st, [LogEntry.error "fetch error"])

/-- Body of the per-package loop of fetchExtraData (lines 24-37): log and
skip a package failing the existence check, otherwise load the descriptor
and run the five fetchers in order, threading the store. -/
def fetchPackageStep (env : Env) (acc : Store × List LogEntry) (p : String) :
    Store × List LogEntry :=
  if env.packageExists p then
    let pkg := env.loadPackage p
    let r1 := fetchUpdatedTime env p acc.1
    let r2 := fetchUnityVersion env p r1.1
    let r3 := fetchStars env pkg.repo p r2.1
    let r4 := fetchOGImage env pkg p r3.1
    let r5 := fetchReadme env pkg.repo p r4.1
    (r5.1, acc.2 ++ r1.2 ++ r2.2 ++ r3.2 ++ r4.2 ++ r5.2)
  else
    (acc.1, acc.2 ++ [LogEntry.error ("package does not exist: " ++ p)])

/-- Embedding of fetchExtraData (lines 21-38): a null or undefined
argument is replaced by the empty list (line 23), then the loop runs
sequentially over the requested names. -/
def fetchExtraData (env : Env) (packageNames : Option (List String)) (store : Store) :
    Store × List LogEntry :=
  (packageNames.getD []).foldl (fetchPackageStep env)
    (store, [LogEntry.info "fetchExtraData"])

/-- Record assembled for one package at lines 179-187, a pure function of
the stored field values: stars defaulted to 0, unity defaulted to the
baseline when absent or empty, imageUrl and time replaced by undefined
when falsy (absent, undefined, empty string, zero, or NaN). -/
def aggRecord (store : Store) (p : String) : AggRecord :=
  { stars := (store.stars p).getD 0,
    unity :=
      match store.unity p with
      | some u => if u = "" then baselineUnity else u
      | none => baselineUnity,
    imageUrl :=
      match store.imageUrl p with
      | some (some s) => if s = "" then none else some s
      | some none => none
      | none => none,
    time :=
      match store.updatedTime p with
      | some (some t) => if t = 0 then none else some t
      | some none => none
      | none => none }

/-- Loop of aggregateExtraData (lines 173-189) building the aggData
object: packages failing the existence check are skipped, every other
listed package gets its record inserted. -/
def aggLoop (env : Env) (store : Store) :
    List String → (String → Option AggRecord) → (String → Option AggRecord)
  | [], agg => agg
  | p :: rest, agg =>
    if env.packageExists p then
      aggLoop env store rest
        (fun q => if q = p then some (aggRecord store p) else agg q)
    else aggLoop env store rest agg

/-- Complete aggregated mapping handed to the bulk write at line 190. -/
def aggMap (env : Env) (store : Store) : String → Option AggRecord :=
  aggLoop env store env.packageNames (fun _ => none)

/-- Embedding of aggregateExtraData (lines 169-191): one bulk replacement
of the aggregated mapping, plus the info line and one error line per
listed package failing the existence check. -/
def aggregateExtraData (env : Env) (store : Store) : Store × List LogEntry :=
  ({ store with aggregated := aggMap env store },
   LogEntry.info "aggregateExtraData" ::
     (env.packageNames.filter (fun p => !env.packageExists p)).map
       (fun p => LogEntry.error ("package does not exist: " ++ p)))

/-- Store operation performed by the aggregator, for stating atomicity:
four field reads per package and the single bulk write. -/
inductive StoreOp where
  | readStars (p : String)
  | readUnity (p : String)
  | readImage (p : String)
  | readTime (p : String)
  | writeAgg (m : String → Option AggRecord)

/-- Predicate picking out the read operations. -/
def StoreOp.isRead : StoreOp → Bool
  | .writeAgg _ => false
  | _ => true

/-- Effect of one store operation on the store: reads leave it untouched,
the bulk write replaces the aggregated mapping wholesale. -/
def execOp (s : Store) : StoreOp → Store
  | .writeAgg m => { s with aggregated := m }
  | _ => s

/-- Sequence of reads issued by the aggregation loop (lines 180-186), in
source order, skipping packages that fail the existence check. -/
def aggReads (env : Env) : List String → List StoreOp
  | [] => []
  | p :: rest =>
    (if env.packageExists p then
      [StoreOp.readStars p, StoreOp.readUnity p, StoreOp.readImage p,
       StoreOp.readTime p]
     else []) ++ aggReads env rest

/-- Full sequence of store operations performed by aggregateExtraData:
all the loop reads followed by the one bulk write of the complete
mapping (line 190). -/
def aggTrace (env : Env) (store : Store) : List StoreOp :=
  aggReads env env.packageNames ++ [StoreOp.writeAgg (aggMap env store)]

/-! Concrete environments and stores used to evaluate the definitions on
closed inputs. -/

/-- Store with no field ever written. -/
def emptyStore : Store :=
  { unity := fun _ => none, stars := fun _ => none, imageUrl := fun _ => none,
    updatedTime := fun _ => none, readme := fun _ => none,
    aggregated := fun _ => none }

/-- Descriptor with no parent repo. -/
def pkg0 : Pkg := { repo := "u/r", parentRepo := none }

/-- Environment listing packages a and b of which only a passes the
existence check, with every external source answering not-found. -/
def env0 : Env :=
  { packageNames := ["a", "b"],
    packageExists := fun p => p == "a",
    loadPackage := fun _ => pkg0,
    registry := fun _ => Fetch.notFound,
    repoApi := fun _ => Fetch.notFound,
    repoPage := fun _ => Fetch.notFound,
    readme := fun _ => Fetch.notFound,
    parseDate := fun _ => none }

/-- Variant of env0 whose external sources all fail with a non-404
transport error. -/
def envErr : Env :=
  { env0 with
    registry := fun _ => Fetch.err,
    repoApi := fun _ => Fetch.err,
    repoPage := fun _ => Fetch.err,
    readme := fun _ => Fetch.err }

/-- Store holding only an empty-string unity value for package a. -/
def store0 : Store :=
  { emptyStore with unity := fun q => if q = "a" then some "" else none }

/-- Store holding only a previously fetched cover image for package a. -/
def storeImg : Store :=
  { emptyStore with
    imageUrl := fun q => if q = "a" then some (some "http://old") else none }

/-- Repo API response with 42 stars and no parent. -/
def ri1 : RepoInfo := { stargazers := some 42, parent := none }

/-- Environment whose repo API answers ri1 for repo u/r. -/
def env1 : Env :=
  { env0 with repoApi := fun r => if r = "u/r" then Fetch.ok ri1 else Fetch.err }

/-- Registry response whose latest tag resolves but whose time map has no
entry for it. -/
def dataC4 : RegistryInfo :=
  { distTags := some (some "1.0.0"),
    versions := some (fun _ => none),
    time := some (fun _ => none) }

/-- Environment whose registry always answers dataC4. -/
def envC4 : Env := { env0 with registry := fun _ => Fetch.ok dataC4 }

/-- Registry response whose latest version has a timestamp string that
the date parser rejects. -/
def dataC4b : RegistryInfo :=
  { distTags := some (some "1.0.0"),
    versions := some (fun _ => none),
    time := some (fun _ => some "garbage") }

/-- Environment whose registry always answers dataC4b; its date parser
(from env0) rejects every string. -/
def envC4b : Env := { env0 with registry := fun _ => Fetch.ok dataC4b }

/-- Repo page whose og:image matches the auto-generated avatar pattern. -/
def pageAv : Page := { ogImage := some "https://avatar.x/img.png" }

/-- Repo page with a genuine og:image. -/
def pageImg : Page := { ogImage := some "https://repository-images.x/1.png" }

/-- Environment serving the avatar page for every repo except u/p, which
serves a genuine image. -/
def envC5 : Env :=
  { env0 with
    repoPage := fun r => if r = "u/p" then Fetch.ok pageImg else Fetch.ok pageAv }

/-- Descriptor whose primary repo is u/r and parent repo is u/p. -/
def pkgC5 : Pkg := { repo := "u/r", parentRepo := some "u/p" }

/-- Record produced by aggregation for a package with no stored fields
except an empty unity string. -/
def recA : AggRecord := { stars := 0, unity := "2018.1", imageUrl := none, time := none }

/-! Characterization machinery: each fetcher writes an env-determined
value (or nothing) at its own key, so one run of the orchestrator is a
pointwise update of the field maps. -/

/-- Conditional single-key update of a field map: `some a` writes a at
key p, `none` leaves the map unchanged. -/
def applyField {α : Type} (v : Option α) (p : String) (f : String → Option α) :
    String → Option α :=
  match v with
  | some a => fun q => if q = p then some a else f q
  | none => f

/-- Value written for a package by the unity-version fetcher, `none` when
it writes nothing. -/
def unityVal (env : Env) (p : String) : Option String :=
  match env.registry p with
  | .ok data =>
    match unityOutcome data with
    | .write u => some u
    | _ => none
  | _ => none

/-- Value written for a package by the updated-time fetcher, `none` when
it writes nothing. -/
def updatedVal (env : Env) (p : String) : Option JTime :=
  match env.registry p with
  | .ok data => some (timeValOf env data)
  | _ => none

/-- Value written for a package by the star fetcher, `none` when it
writes nothing. -/
def starsVal (env : Env) (p : String) : Option Nat :=
  match env.repoApi (env.loadPackage p).repo with
  | .ok ri => some (starsValOf ri)
  | _ => none

/-- Value written for a package by the cover-image fetcher; it always
writes. -/
def imageVal (env : Env) (p : String) : Option JsStr :=
  some (ogImageResult env (env.loadPackage p))

/-- Value written for a package by the readme fetcher, `none` when it
writes nothing. -/
def readmeVal (env : Env) (p : String) : Option String :=
  match env.readme (env.loadPackage p).repo with
  | .ok t => some t
  | _ => none

/-- Combined store effect of the five fetchers run on one existing
package. -/
def applyPkg (env : Env) (p : String) (s : Store) : Store :=
  { s with
    updatedTime := applyField (updatedVal env p) p s.updatedTime,
    unity := applyField (unityVal env p) p s.unity,
    stars := applyField (starsVal env p) p s.stars,
    imageUrl := applyField (imageVal env p) p s.imageUrl,
    readme := applyField (readmeVal env p) p s.readme }

/-- Store part of one iteration of the enrichment loop. -/
def storeStep (env : Env) (s : Store) (p : String) : Store :=
  if env.packageExists p then applyPkg env p s else s

/-- Store part of a whole enrichment run over a list of names. -/
def fetchStore (env : Env) (names : List String) (s : Store) : Store :=
  names.foldl (storeStep env) s

/-- Fold of conditional single-key updates over a name list, the shape
every field map takes after an enrichment run. -/
def fieldFold {α : Type} (w : String → Option α) (ex : String → Bool)
    (names : List String) (f : String → Option α) : String → Option α :=
  names.foldl (fun g p => if ex p then applyField (w p) p g else g) f

/-! Helper lemmas. -/

theorem fetchUpdatedTime_fst (env : Env) (p : String) (s : Store) :
    (fetchUpdatedTime env p s).1 =
      { s with updatedTime := applyField (updatedVal env p) p s.updatedTime } := by
  unfold fetchUpdatedTime updatedVal
  cases env.registry p <;> simp [Store.setUpdatedTime, applyField]

theorem fetchUnityVersion_fst (env : Env) (p : String) (s : Store) :
    (fetchUnityVersion env p s).1 =
      { s with unity := applyField (unityVal env p) p s.unity } := by
  unfold fetchUnityVersion unityVal
  cases env.registry p with
  | ok data => cases h : unityOutcome data <;> simp [h, Store.setUnity, applyField]
  | notFound => simp [applyField]
  | err => simp [applyField]

theorem fetchStars_fst (env : Env) (p : String) (s : Store) :
    (fetchStars env (env.loadPackage p).repo p s).1 =
      { s with stars := applyField (starsVal env p) p s.stars } := by
  unfold fetchStars starsVal
  cases env.repoApi (env.loadPackage p).repo <;> simp [Store.setStars, applyField]

theorem fetchOGImage_writes (env : Env) (pkg : Pkg) (p : String) (s : Store) :
    (fetchOGImage env pkg p s).1 = s.setImageUrl p (ogImageResult env pkg) := by
  unfold fetchOGImage ogImageResult
  by_cases h : (!jsTruthyStr (fetchOGImageForRepo env pkg.repo).1 &&
      jsTruthyStr pkg.parentRepo) = true <;> simp [h]

theorem fetchOGImage_fst (env : Env) (p : String) (s : Store) :
    (fetchOGImage env (env.loadPackage p) p s).1 =
      { s with imageUrl := applyField (imageVal env p) p s.imageUrl } := by
  rw [fetchOGImage_writes]
  unfold imageVal
  simp [Store.setImageUrl, applyField]

theorem fetchReadme_fst (env : Env) (p : String) (s : Store) :
    (fetchReadme env (env.loadPackage p).repo p s).1 =
      { s with readme := applyField (readmeVal env p) p s.readme } := by
  unfold fetchReadme readmeVal
  cases env.readme (env.loadPackage p).repo <;> simp [Store.setReadme, applyField]

theorem fetchPackageStep_fst (env : Env) (acc : Store × List LogEntry) (p : String) :
    (fetchPackageStep env acc p).1 = storeStep env acc.1 p := by
  unfold fetchPackageStep storeStep
  by_cases h : env.packageExists p
  · simp only [h, if_true]
    rw [fetchReadme_fst, fetchOGImage_fst, fetchStars_fst, fetchUnityVersion_fst,
      fetchUpdatedTime_fst]
    rfl
  · simp [h]

theorem foldl_step_fst (env : Env) (names : List String) (acc : Store × List LogEntry) :
    (names.foldl (fetchPackageStep env) acc).1 = names.foldl (storeStep env) acc.1 := by
  induction names generalizing acc with
  | nil => rfl
  | cons p ns ih => rw [List.foldl_cons, List.foldl_cons, ih, fetchPackageStep_fst]

theorem fetchExtraData_fst (env : Env) (pns : Option (List String)) (store : Store) :
    (fetchExtraData env pns store).1 = fetchStore env (pns.getD []) store := by
  unfold fetchExtraData fetchStore
  exact foldl_step_fst env (pns.getD []) (store, [LogEntry.info "fetchExtraData"])

theorem applyField_ne {α : Type} (v : Option α) (p q : String) (f : String → Option α)
    (h : q ≠ p) : applyField v p f q = f q := by
  cases v <;> simp [applyField, h]

theorem fieldFold_eq {α : Type} (w : String → Option α) (ex : String → Bool)
    (names : List String) (f : String → Option α) (q : String) :
    fieldFold w ex names f q =
      if q ∈ names ∧ ex q = true ∧ (w q).isSome = true then w q else f q := by
  induction names generalizing f with
  | nil => simp [fieldFold]
  | cons p ns ih =>
    have h1 : fieldFold w ex (p :: ns) f =
        fieldFold w ex ns (if ex p then applyField (w p) p f else f) := rfl
    rw [h1, ih]
    by_cases hmem : q ∈ ns ∧ ex q = true ∧ (w q).isSome = true
    · have hin : q ∈ p :: ns := List.mem_cons.mpr (Or.inr hmem.1)
      rw [if_pos hmem, if_pos ⟨hin, hmem.2⟩]
    · have hg : (if ex p then applyField (w p) p f else f) q =
          if q = p ∧ ex q = true ∧ (w q).isSome = true then w q else f q := by
        by_cases hqp : q = p
        · subst hqp
          by_cases hex : ex q
          · cases hw : w q with
            | some a => simp [hex, applyField, hw]
            | none => simp [hex, applyField, hw]
          · simp [hex]
        · by_cases hep : ex p
          · simp [hep, applyField_ne (w p) p q f hqp, hqp]
          · simp [hep, hqp]
      rw [if_neg hmem, hg]
      by_cases hqp : q = p ∧ ex q = true ∧ (w q).isSome = true
      · have hin : q ∈ p :: ns := by simp [hqp.1]
        rw [if_pos hqp, if_pos ⟨hin, hqp.2⟩]
      · have hnot : ¬(q ∈ p :: ns ∧ ex q = true ∧ (w q).isSome = true) := by
          rintro ⟨hin, hex, hsome⟩
          rcases List.mem_cons.mp hin with h | h
          · exact hqp ⟨h, hex, hsome⟩
          · exact hmem ⟨h, hex, hsome⟩
        rw [if_neg hqp, if_neg hnot]

theorem fetchStore_eq (env : Env) (names : List String) (s : Store) :
    fetchStore env names s =
      { unity := fieldFold (unityVal env) env.packageExists names s.unity,
        stars := fieldFold (starsVal env) env.packageExists names s.stars,
        imageUrl := fieldFold (imageVal env) env.packageExists names s.imageUrl,
        updatedTime := fieldFold (updatedVal env) env.packageExists names s.updatedTime,
        readme := fieldFold (readmeVal env) env.packageExists names s.readme,
        aggregated := s.aggregated } := by
  induction names generalizing s with
  | nil => rfl
  | cons p ns ih =>
    have h1 : fetchStore env (p :: ns) s = fetchStore env ns (storeStep env s p) := rfl
    rw [h1, ih]
    by_cases hp : env.packageExists p <;>
      simp [storeStep, applyPkg, hp, fieldFold, List.foldl_cons]

theorem fieldFold_idem {α : Type} (w : String → Option α) (ex : String → Bool)
    (names : List String) (f : String → Option α) :
    fieldFold w ex names (fieldFold w ex names f) = fieldFold w ex names f := by
  funext q
  rw [fieldFold_eq, fieldFold_eq]
  by_cases h : q ∈ names ∧ ex q = true ∧ (w q).isSome = true <;> simp [h]

theorem fetchStore_idem (env : Env) (names : List String) (s : Store) :
    fetchStore env names (fetchStore env names s) = fetchStore env names s := by
  rw [fetchStore_eq env names s, fetchStore_eq env names]
  simp [fieldFold_idem]

theorem aggLoop_eq (env : Env) (store : Store) (names : List String)
    (agg : String → Option AggRecord) (q : String) :
    aggLoop env store names agg q =
      if q ∈ names ∧ env.packageExists q = true then some (aggRecord store q)
      else agg q := by
  induction names generalizing agg with
  | nil => simp [aggLoop]
  | cons p ns ih =>
    by_cases hp : env.packageExists p
    · have h1 : aggLoop env store (p :: ns) agg =
          aggLoop env store ns
            (fun r => if r = p then some (aggRecord store p) else agg r) := by
        simp [aggLoop, hp]
      rw [h1, ih]
      by_cases hmem : q ∈ ns ∧ env.packageExists q = true
      · simp [hmem, List.mem_cons, hmem.1]
      · by_cases hqp : q = p
        · subst hqp
          simp [hmem, List.mem_cons, hp]
        · simp [hmem, List.mem_cons, hqp]
    · have h1 : aggLoop env store (p :: ns) agg = aggLoop env store ns agg := by
        simp [aggLoop, hp]
      rw [h1, ih]
      by_cases hmem : q ∈ ns ∧ env.packageExists q = true
      · simp [hmem, List.mem_cons, hmem.1]
      · by_cases hqp : q = p
        · subst hqp
          simp [hmem, List.mem_cons, hp]
        · simp [hmem, List.mem_cons, hqp]

theorem aggMap_eq (env : Env) (store : Store) (q : String) :
    aggMap env store q =
      if q ∈ env.packageNames ∧ env.packageExists q = true
      then some (aggRecord store q) else none :=
  aggLoop_eq env store env.packageNames (fun _ => none) q

theorem aggReads_all_isRead (env : Env) (ns : List String) :
    ∀ op ∈ aggReads env ns, op.isRead = true := by
  induction ns with
  | nil => simp [aggReads]
  | cons p rest ih =>
    intro op hop
    by_cases hp : env.packageExists p
    · simp [aggReads, hp] at hop
      rcases hop with h | h | h | h | h
      · subst h; rfl
      · subst h; rfl
      · subst h; rfl
      · subst h; rfl
      · exact ih op h
    · simp [aggReads, hp] at hop
      exact ih op hop

theorem execOp_isRead (s : Store) (op : StoreOp) (h : op.isRead = true) :
    execOp s op = s := by
  cases op with
  | writeAgg m => simp [StoreOp.isRead] at h
  | readStars p => rfl
  | readUnity p => rfl
  | readImage p => rfl
  | readTime p => rfl

theorem foldl_execOp_reads (l : List StoreOp) (s : Store)
    (h : ∀ op ∈ l, op.isRead = true) : l.foldl execOp s = s := by
  induction l generalizing s with
  | nil => rfl
  | cons op rest ih =>
    rw [List.foldl_cons, execOp_isRead s op (h op (by simp))]
    exact ih s (fun o ho => h o (by simp [ho]))

/-! Claim theorems. -/

/-- C2: on a successful repo-API response the star fetcher writes the
primary stargazer count plus the parent count when a parent object with a
count is present, and the primary count alone otherwise; and aggregation
gives a record with stars 0 to any listed, existing package with no
stored star value. -/
theorem C2_stars (env : Env) (repo packageName : String) (store : Store)
    (ri : RepoInfo) (n : Nat) :
    (env.repoApi repo = Fetch.ok ri → ri.stargazers = some n →
      ((ri.parent = none →
        (fetchStars env repo packageName store).1.stars packageName = some n) ∧
       (∀ m, ri.parent = some (some m) →
        (fetchStars env repo packageName store).1.stars packageName = some (n + m)))) ∧
    (∀ q, q ∈ env.packageNames → env.packageExists q = true → store.stars q = none →
      ∃ r, aggMap env store q = some r ∧ r.stars = 0) := by
  constructor
  · intro hapi hn
    constructor
    · intro hp
      simp [fetchStars, hapi, Store.setStars, starsValOf, hn, hp]
    · intro m hp
      simp [fetchStars, hapi, Store.setStars, starsValOf, hn, hp]
  · intro q hq hex hst
    refine ⟨aggRecord store q, ?_, ?_⟩
    · rw [aggMap_eq]
      simp [hq, hex]
    · simp [aggRecord, hst]

/-- Witness for C2_stars: a 42-star parentless repo yields a stored count
of 42, and aggregation of a store with no star value yields stars 0. -/
theorem C2_stars_w :
    (fetchStars env1 "u/r" "a" emptyStore).1.stars "a" = some 42 ∧
    ∃ r, aggMap env0 store0 "a" = some r ∧ r.stars = 0 := by
  constructor
  · exact ((C2_stars env1 "u/r" "a" emptyStore ri1 42).1 (by decide) rfl).1 rfl
  · exact (C2_stars env0 "u/r" "a" store0 ri1 0).2 "a" (by decide) (by decide) (by decide)

/-- C5: the cover-image fetcher blanks any extracted URL matching the
avatar pattern, falls back to the parent repo page when the primary
result is falsy and a parent reference exists, and always writes the
final value to the store. -/
theorem C5_coverImage (env : Env) (pkg : Pkg) (p : String) (store : Store) :
    (∀ repo page c, env.repoPage repo = Fetch.ok page → page.ogImage = some c →
      isAvatarUrl c = true →
      fetchOGImageForRepo env repo = (some "", [])) ∧
    (∀ pr, pkg.parentRepo = some pr → pr ≠ "" →
      jsTruthyStr (fetchOGImageForRepo env pkg.repo).1 = false →
      ogImageResult env pkg = (fetchOGImageForRepo env pr).1) ∧
    ((fetchOGImage env pkg p store).1 = store.setImageUrl p (ogImageResult env pkg) ∧
     (fetchOGImage env pkg p store).1.imageUrl p = some (ogImageResult env pkg)) := by
  refine ⟨?_, ?_, ?_, ?_⟩
  · intro repo page c h1 h2 h3
    simp [fetchOGImageForRepo, h1, h2, h3]
  · intro pr hpr hne hfalse
    have hcond : (!jsTruthyStr (fetchOGImageForRepo env pkg.repo).1 &&
        jsTruthyStr pkg.parentRepo) = true := by
      rw [hfalse, hpr]
      simp [jsTruthyStr, bne_iff_ne, hne]
    simp only [ogImageResult]
    rw [if_pos hcond, hpr]
    rfl
  · exact fetchOGImage_writes env pkg p store
  · rw [fetchOGImage_writes]
    simp [Store.setImageUrl]

/-- Witness for C5_coverImage: an avatar-pattern og:image is blanked, the
parent page is consulted, and the final value is written. -/
theorem C5_coverImage_w :
    fetchOGImageForRepo envC5 "u/r" = (some "", []) ∧
    ogImageResult envC5 pkgC5 = (fetchOGImageForRepo envC5 "u/p").1 ∧
    (fetchOGImage envC5 pkgC5 "a" emptyStore).1
      = emptyStore.setImageUrl "a" (ogImageResult envC5 pkgC5) := by
  have h := C5_coverImage envC5 pkgC5 "a" emptyStore
  refine ⟨?_, ?_, h.2.2.1⟩
  · exact h.1 "u/r" pageAv "https://avatar.x/img.png" (by decide) rfl (by decide)
  · exact h.2.1 "u/p" rfl (by decide) (by decide)

/-- C7: a package failing the existence check produces no store write and
exactly one log entry and the loop moves on; an existing package has all
five fetchers applied regardless of individual failures; and processing a
concatenated list equals processing the first part and then continuing
with the second, so every requested package is attempted. -/
theorem C7_isolation (env : Env) (store : Store) (logs : List LogEntry) (p : String)
    (ns1 ns2 : List String) :
    (env.packageExists p = false →
      fetchPackageStep env (store, logs) p
        = (store, logs ++ [LogEntry.error ("package does not exist: " ++ p)])) ∧
    (env.packageExists p = true →
      (fetchPackageStep env (store, logs) p).1 = applyPkg env p store) ∧
    (fetchExtraData env (some (ns1 ++ ns2)) store
      = ns2.foldl (fetchPackageStep env) (fetchExtraData env (some ns1) store)) := by
  refine ⟨?_, ?_, ?_⟩
  · intro h
    simp [fetchPackageStep, h]
  · intro h
    rw [fetchPackageStep_fst]
    simp [storeStep, h]
  · unfold fetchExtraData
    simp [List.foldl_append]

/-- Witness for C7_isolation: in env0, package b fails the existence
check and only logs, while package a gets the full five-fetcher effect. -/
theorem C7_isolation_w :
    fetchPackageStep env0 (emptyStore, []) "b"
      = (emptyStore, [LogEntry.error ("package does not exist: " ++ "b")]) ∧
    (fetchPackageStep env0 (emptyStore, []) "a").1 = applyPkg env0 "a" emptyStore := by
  constructor
  · have h := (C7_isolation env0 emptyStore [] "b" [] []).1 (by decide)
    simpa using h
  · exact (C7_isolation env0 emptyStore [] "a" [] []).2.1 (by decide)

/-- C9: with the environment fixed, enriching twice and aggregating once
yields the same aggregated mapping as enriching once and aggregating
once. -/
theorem C9_idempotent (env : Env) (pns : Option (List String)) (store : Store) :
    (aggregateExtraData env (fetchExtraData env pns (fetchExtraData env pns store).1).1).1.aggregated
      = (aggregateExtraData env (fetchExtraData env pns store).1).1.aggregated := by
  have h : (fetchExtraData env pns (fetchExtraData env pns store).1).1
      = (fetchExtraData env pns store).1 := by
    rw [fetchExtraData_fst env pns (fetchExtraData env pns store).1,
      fetchExtraData_fst env pns store, fetchStore_idem]
  rw [h]

/-- C10: a null or undefined package-name list is replaced by the empty
list, so the orchestrator touches no field, performs no store write, and
returns normally with only its entry log line. -/
theorem C10_nullList (env : Env) (store : Store) :
    fetchExtraData env none store = (store, [LogEntry.info "fetchExtraData"]) := rfl

/-- C1 fails on the code: package b is in the enumerator listing but
fails the existence check, so the aggregated mapping omits it; and the
record of package a, whose stored unity value is the empty string, holds
the baseline constant instead of the stored value. -/
theorem C1_counterexample :
    "b" ∈ env0.packageNames ∧ aggMap env0 store0 "b" = none ∧
    store0.unity "a" = some "" ∧
    aggMap env0 store0 "a" = some recA ∧ recA.unity ≠ "" := by
  refine ⟨by decide, by decide, by decide, by decide, by decide⟩

/-- C1 amended: the aggregated mapping holds exactly one record for every
listed package that passes the existence check and none for any other
identifier, and each record's unity attribute is the stored unity value
when a non-empty one is stored and the baseline constant otherwise. -/
theorem C1_fixed (env : Env) (store : Store) (q : String) :
    ((aggMap env store q).isSome = true ↔
      (q ∈ env.packageNames ∧ env.packageExists q = true)) ∧
    (∀ r, aggMap env store q = some r →
      r.unity = match store.unity q with
        | some u => if u = "" then baselineUnity else u
        | none => baselineUnity) := by
  constructor
  · rw [aggMap_eq]
    by_cases h : q ∈ env.packageNames ∧ env.packageExists q = true <;> simp [h]
  · intro r hr
    rw [aggMap_eq] at hr
    by_cases h : q ∈ env.packageNames ∧ env.packageExists q = true
    · rw [if_pos h] at hr
      have hr2 : r = aggRecord store q := by
        injection hr with h2
        exact h2.symm
      subst hr2
      rfl
    · rw [if_neg h] at hr
      exact absurd hr (by simp)

/-- Witness for C1_fixed: package a is listed and exists, so its record
is present, and its empty stored unity value collapses to the baseline. -/
theorem C1_fixed_w :
    (aggMap env0 store0 "a").isSome = true ∧ recA.unity = baselineUnity := by
  constructor
  · exact ((C1_fixed env0 store0 "a").1).2 ⟨by decide, by decide⟩
  · have h := (C1_fixed env0 store0 "a").2 recA (by decide)
    exact h.trans (by decide)

/-- C3 fails on the code: a registry 404 makes the updated-time fetcher
log through its unconditional console.error, where the claim demands
silence. -/
theorem C3_counterexample :
    env0.registry "a" = Fetch.notFound ∧
    (fetchUpdatedTime env0 "a" emptyStore).2 = [LogEntry.error "fetch error"] :=
  ⟨rfl, by decide⟩

/-- C3 amended: only the runtime-version fetcher treats not-found
silently with no write; the updated-time, star and readme fetchers log a
not-found (still without writing), and the cover-image fetcher logs a
not-found and still writes its final empty result. -/
theorem C3_fixed (env : Env) (p r : String) (pkg : Pkg) (store : Store) :
    (env.registry p = Fetch.notFound → fetchUnityVersion env p store = (store, [])) ∧
    (env.registry p = Fetch.notFound →
      (fetchUpdatedTime env p store).1 = store ∧
      (fetchUpdatedTime env p store).2 = [LogEntry.error "fetch error"]) ∧
    (env.repoApi r = Fetch.notFound →
      (fetchStars env r p store).1 = store ∧
      (fetchStars env r p store).2 = [LogEntry.error "fetch error"]) ∧
    (env.readme r = Fetch.notFound →
      (fetchReadme env r p store).1 = store ∧
      (fetchReadme env r p store).2 = [LogEntry.error "fetch error"]) ∧
    (env.repoPage pkg.repo = Fetch.notFound → jsTruthyStr pkg.parentRepo = false →
      (fetchOGImage env pkg p store).1 = store.setImageUrl p (some "") ∧
      (fetchOGImage env pkg p store).2 = [LogEntry.error "fetch error"]) := by
  refine ⟨?_, ?_, ?_, ?_, ?_⟩
  · intro h
    simp [fetchUnityVersion, h]
  · intro h
    simp [fetchUpdatedTime, h]
  · intro h
    simp [fetchStars, h]
  · intro h
    simp [fetchReadme, h]
  · intro h1 h2
    have hr : fetchOGImageForRepo env pkg.repo
        = (some "", [LogEntry.error "fetch error"]) := by
      simp [fetchOGImageForRepo, h1]
    constructor
    · rw [fetchOGImage_writes]
      congr 1
      simp only [ogImageResult]
      rw [h2, Bool.and_false]
      simp [hr]
    · simp only [fetchOGImage]
      rw [h2, Bool.and_false]
      simp [hr]

/-- Witness for C3_fixed: with every source answering not-found, the
unity fetcher is silent, the other field fetchers leave the store alone,
and the cover-image fetcher writes the empty string. -/
theorem C3_fixed_w :
    fetchUnityVersion env0 "a" emptyStore = (emptyStore, []) ∧
    (fetchUpdatedTime env0 "a" emptyStore).1 = emptyStore ∧
    (fetchStars env0 "u/r" "a" emptyStore).1 = emptyStore ∧
    (fetchReadme env0 "u/r" "a" emptyStore).1 = emptyStore ∧
    (fetchOGImage env0 pkg0 "a" emptyStore).1 = emptyStore.setImageUrl "a" (some "") := by
  have h := C3_fixed env0 "a" "u/r" pkg0 emptyStore
  exact ⟨h.1 rfl, (h.2.1 rfl).1, (h.2.2.1 rfl).1, (h.2.2.2.1 rfl).1,
    (h.2.2.2.2 rfl (by decide)).1⟩

/-- C4 fails on the code: on a successful registry response with no
publish timestamp for the latest version, the fetcher does not skip but
writes 0 (the epoch time of the fallback value), and it logs nothing. -/
theorem C4_counterexample :
    envC4.registry "a" = Fetch.ok dataC4 ∧ timeStrOf dataC4 = none ∧
    emptyStore.updatedTime "a" = none ∧
    (fetchUpdatedTime envC4 "a" emptyStore).1.updatedTime "a" = some (some 0) ∧
    (fetchUpdatedTime envC4 "a" emptyStore).2 = [] := by
  refine ⟨rfl, rfl, rfl, by decide, by decide⟩

/-- C4 amended: on a successful registry response the updated-time
fetcher always writes and never logs: the value is 0 when the timestamp
is missing, NaN when the timestamp string does not parse, and the parsed
epoch value otherwise. -/
theorem C4_fixed (env : Env) (p : String) (store : Store) (data : RegistryInfo)
    (hok : env.registry p = Fetch.ok data) :
    (timeStrOf data = none →
      fetchUpdatedTime env p store = (store.setUpdatedTime p (some 0), [])) ∧
    (∀ s, timeStrOf data = some s → s ≠ "" → env.parseDate s = none →
      fetchUpdatedTime env p store = (store.setUpdatedTime p none, [])) ∧
    (∀ s t, timeStrOf data = some s → s ≠ "" → env.parseDate s = some t →
      fetchUpdatedTime env p store = (store.setUpdatedTime p (some t), [])) := by
  refine ⟨?_, ?_, ?_⟩
  · intro h
    simp [fetchUpdatedTime, hok, timeValOf, h]
  · intro s hs hne hparse
    simp [fetchUpdatedTime, hok, timeValOf, hs, hne, hparse]
  · intro s t hs hne hparse
    simp [fetchUpdatedTime, hok, timeValOf, hs, hne, hparse]

/-- Witness for C4_fixed: a missing timestamp writes 0 and an
unparseable one writes NaN, both silently. -/
theorem C4_fixed_w :
    fetchUpdatedTime envC4 "a" emptyStore = (emptyStore.setUpdatedTime "a" (some 0), []) ∧
    fetchUpdatedTime envC4b "a" emptyStore = (emptyStore.setUpdatedTime "a" none, []) := by
  refine ⟨(C4_fixed envC4 "a" emptyStore dataC4 rfl).1 rfl,
    (C4_fixed envC4b "a" emptyStore dataC4b rfl).2.1 "garbage" rfl (by decide) rfl⟩

/-- C6 fails on the code: when the repo page fetch fails, the cover-image
fetcher overwrites the previously stored image URL with the empty
string. -/
theorem C6_counterexample :
    envErr.repoPage "u/r" = Fetch.err ∧
    storeImg.imageUrl "a" = some (some "http://old") ∧
    (fetchOGImage envErr pkg0 "a" storeImg).1.imageUrl "a" = some (some "") := by
  refine ⟨rfl, by decide, by decide⟩

/-- C6 amended: for the updated-time, runtime-version, star and readme
fetchers any fetch failure (not-found or transport error) leaves the
stored field exactly as it was; the cover-image fetcher is the exception
and always writes its final result, overwriting the stored value with
the empty string when its fetches fail. -/
theorem C6_fixed (env : Env) (p r : String) (store : Store) (pkg : Pkg) :
    ((env.registry p = Fetch.notFound ∨ env.registry p = Fetch.err) →
      (fetchUpdatedTime env p store).1 = store) ∧
    ((env.registry p = Fetch.notFound ∨ env.registry p = Fetch.err) →
      (fetchUnityVersion env p store).1 = store) ∧
    ((env.repoApi r = Fetch.notFound ∨ env.repoApi r = Fetch.err) →
      (fetchStars env r p store).1 = store) ∧
    ((env.readme r = Fetch.notFound ∨ env.readme r = Fetch.err) →
      (fetchReadme env r p store).1 = store) ∧
    ((fetchOGImage env pkg p store).1 = store.setImageUrl p (ogImageResult env pkg)) := by
  refine ⟨?_, ?_, ?_, ?_, fetchOGImage_writes env pkg p store⟩
  · rintro (h | h) <;> simp [fetchUpdatedTime, h]
  · rintro (h | h) <;> simp [fetchUnityVersion, h]
  · rintro (h | h) <;> simp [fetchStars, h]
  · rintro (h | h) <;> simp [fetchReadme, h]

/-- Witness for C6_fixed: with every source failing, the four
skip-on-failure fetchers leave the empty store untouched. -/
theorem C6_fixed_w :
    (fetchUpdatedTime env0 "a" emptyStore).1 = emptyStore ∧
    (fetchUnityVersion env0 "a" emptyStore).1 = emptyStore ∧
    (fetchStars env0 "u/r" "a" emptyStore).1 = emptyStore ∧
    (fetchReadme env0 "u/r" "a" emptyStore).1 = emptyStore := by
  have h := C6_fixed env0 "a" "u/r" emptyStore pkg0
  exact ⟨h.1 (Or.inl rfl), h.2.1 (Or.inl rfl), h.2.2.1 (Or.inl rfl),
    h.2.2.2.1 (Or.inl rfl)⟩

/-- C8: the aggregator performs exactly one store write, that write is
its last store operation and carries the complete new mapping, any run of
operations stopping before the write leaves the stored aggregated
mapping untouched, and executing the whole trace yields exactly the
store produced by aggregateExtraData. -/
theorem C8_atomic (env : Env) (store : Store) :
    (aggTrace env store).countP (fun op => !op.isRead) = 1 ∧
    (aggTrace env store).getLast? = some (StoreOp.writeAgg (aggMap env store)) ∧
    (∀ l, l <+: aggReads env env.packageNames →
      (l.foldl execOp store).aggregated = store.aggregated) ∧
    (aggTrace env store).foldl execOp store = (aggregateExtraData env store).1 := by
  refine ⟨?_, ?_, ?_, ?_⟩
  · unfold aggTrace
    rw [List.countP_append]
    have h0 : (aggReads env env.packageNames).countP (fun op => !op.isRead) = 0 := by
      rw [List.countP_eq_zero]
      intro op hop
      simp [aggReads_all_isRead env _ op hop]
    rw [h0]
    rfl
  · unfold aggTrace
    exact List.getLast?_concat _
  · intro l hl
    have hall : ∀ op ∈ l, op.isRead = true := fun op hop =>
      aggReads_all_isRead env _ op (hl.sublist.subset hop)
    rw [foldl_execOp_reads l store hall]
  · unfold aggTrace
    rw [List.foldl_append, foldl_execOp_reads _ store (aggReads_all_isRead env _)]
    rfl

/-- Witness for C8_atomic: on the concrete environment the trace holds
one write, and the empty pre-write run changes nothing. -/
theorem C8_atomic_w :
    (aggTrace env0 store0).countP (fun op => !op.isRead) = 1 ∧
    (([] : List StoreOp).foldl execOp store0).aggregated = store0.aggregated := by
  have h := C8_atomic env0 store0
  exact ⟨h.1, h.2.2.1 [] ⟨aggReads env0 env0.packageNames, rfl⟩⟩

end Upm
